import Mathlib

/-
Verification of the EstrategiaDownOF download engine against its
specification, by a shallow embedding of the core of
`download_database.py`, `async_downloader.py` and `main.py`.

Modelling conventions:
- Byte strings are `List Nat`; file contents live in an association list
  (engine side) or in a lookup function `String -> Option FileData`
  (store side).  `FileData.statOk` / `FileData.readOk` model whether
  `os.path.getsize` / `open + read` succeed (an `OSError` in the source).
- The SQLite `downloads` table is an association list keyed by
  `file_path`; `INSERT OR REPLACE` and `UPDATE ... WHERE file_path = ?`
  both become "erase the key then cons the new row", which preserves the
  lookup semantics of a table with a UNIQUE path column.
- The SHA-256 digest is an arbitrary function `List Nat -> String`,
  passed as a parameter; `_calculate_sha256` returns "" when the file
  cannot be read, as in the source.
- Timestamps (`downloaded_at`, `last_download_at`, `last_verified_at`,
  `last_sync_at`) are not modelled: no claim mentions them.
- Network responses per attempt are given by `net : Nat -> NetResult`;
  `netError` is an `aiohttp.ClientError` / `asyncio.TimeoutError`
  raised by the request, `fatalError` any other exception.
- Observable actions of one engine run are collected in an `Event`
  trace (HTTP request with its Range offset, chunk writes to the temp
  file, rename, checkpoint mark, backoff sleep).
-/

namespace EstrategiaDown

/-! ## Store data model (`download_database.py`) -/

structure FileData where
  content : List Nat
  statOk : Bool
  readOk : Bool
deriving DecidableEq

abbrev FileSystem := String → Option FileData

abbrev HashFn := List Nat → String

/-- One row of the `downloads` table (timestamps omitted). -/
structure DBRecord where
  file_name : String
  url : String
  course_name : String
  lesson_name : String
  file_type : String
  size_bytes : Option Nat
  sha256 : Option String
  verified : Bool
  status : String
deriving DecidableEq

/-- The singleton `statistics` row (timestamps omitted). -/
structure Statistics where
  total_files : Nat
  total_bytes : Nat
  total_videos : Nat
  total_pdfs : Nat
  total_materials : Nat
deriving DecidableEq

structure DBState where
  downloads : List (String × DBRecord)
  stats : Statistics
deriving DecidableEq

/-- `SELECT ... WHERE key = p LIMIT 1` on an association list. -/
def dbLookup {α : Type} (l : List (String × α)) (p : String) : Option α :=
  match l with
  | [] => none
  | (k, v) :: rest => if k = p then some v else dbLookup rest p

/-- Remove every row keyed `p` (one row, when keys are unique). -/
def dbErase {α : Type} (l : List (String × α)) (p : String) : List (String × α) :=
  l.filter (fun e => e.1 != p)

/-- Python truthiness of a nullable integer column (`None` and `0` are falsy). -/
def truthyNat : Option Nat → Bool
  | none => false
  | some n => n != 0

/-- Python truthiness of a nullable text column (`None` and `""` are falsy). -/
def truthyStr : Option String → Bool
  | none => false
  | some s => s != ""

/-- `pathlib.Path(p).parts` for a POSIX path. -/
def pathParts (p : String) : List String :=
  let comps := (p.splitOn "/").filter (fun s => s != "")
  if p.startsWith "/" then "/" :: comps else comps

/-- `pathlib.Path(p).name`. -/
def baseName (p : String) : String :=
  ((p.splitOn "/").filter (fun s => s != "")).getLastD ""

/-- `x in s` substring test from Python. -/
def containsSub (s sub : String) : Bool :=
  decide (List.IsInfix sub.toList s.toList)

namespace DownloadDatabase

/-- `_calculate_sha256`: digest of the file bytes, `""` on an `OSError`. -/
def _calculate_sha256 (hash : HashFn) (fd : FileData) : String :=
  if fd.readOk then hash fd.content else ""

/-- The `size_bytes` actually inserted: the explicit argument, else
`os.path.getsize` when the file exists and `getsize` does not raise. -/
def effectiveSize (fs : FileSystem) (file_path : String) (size_bytes : Option Nat) : Option Nat :=
  match size_bytes with
  | some s => some s
  | none =>
    match fs file_path with
    | some fd => if fd.statOk then some fd.content.length else none
    | none => none

/-- The row inserted by `mark_downloaded` (`INSERT OR REPLACE`). -/
def buildRecord (hash : HashFn) (fs : FileSystem)
    (file_path url course_name lesson_name file_type : String)
    (size_bytes : Option Nat) (calculate_hash : Bool) : DBRecord :=
  let sha256 : Option String :=
    match fs file_path with
    | some fd => if calculate_hash then some (_calculate_sha256 hash fd) else none
    | none => none
  { file_name := baseName file_path
    url := url
    course_name := course_name
    lesson_name := lesson_name
    file_type := file_type
    size_bytes := effectiveSize fs file_path size_bytes
    sha256 := sha256
    verified := sha256.isSome
    status := "completed" }

/-- `_update_statistics`: bump `total_files`, then `total_bytes` when the
size is truthy, then the per-kind counter. -/
def _update_statistics (file_type : String) (size_bytes : Option Nat)
    (s : Statistics) : Statistics :=
  let s1 := { s with total_files := s.total_files + 1 }
  let s2 :=
    if truthyNat size_bytes then { s1 with total_bytes := s1.total_bytes + size_bytes.getD 0 }
    else s1
  if file_type = "video" then { s2 with total_videos := s2.total_videos + 1 }
  else if file_type = "pdf" then { s2 with total_pdfs := s2.total_pdfs + 1 }
  else if file_type = "material" then { s2 with total_materials := s2.total_materials + 1 }
  else s2

/-- `mark_downloaded` (SQLite branch): insert or replace the row for
`file_path`, updating statistics only when no row existed. -/
def mark_downloaded (hash : HashFn) (fs : FileSystem)
    (file_path url course_name lesson_name file_type : String)
    (size_bytes : Option Nat) (calculate_hash : Bool) (db : DBState) : DBState :=
  let newRec := buildRecord hash fs file_path url course_name lesson_name file_type
    size_bytes calculate_hash
  let already_exists := (dbLookup db.downloads file_path).isSome
  { downloads := (file_path, newRec) :: dbErase db.downloads file_path
    stats :=
      if already_exists then db.stats
      else _update_statistics file_type (effectiveSize fs file_path size_bytes) db.stats }

/-- `is_downloaded` (SQLite branch): a row exists with status completed. -/
def is_downloaded (db : DBState) (file_path : String) : Bool :=
  match dbLookup db.downloads file_path with
  | some r => r.status == "completed"
  | none => false

/-- The detail part of the `(is_valid, message)` pair returned by
`verify_file_integrity`; each constructor stands for one of the literal
message strings of the source. -/
inductive VerifyDetail where
  | fileMissing
  | notInDatabase
  | sizeMismatch (expected actual : Nat)
  | statError
  | hashError
  | hashSaved
  | fileIntact
  | hashMismatch (expected actual : String)
deriving DecidableEq

def setVerified (r : DBRecord) : DBRecord := { r with verified := true }

/-- `verify_file_integrity` (SQLite branch). -/
def verify_file_integrity (hash : HashFn) (fs : FileSystem) (file_path : String)
    (recalculate : Bool) (db : DBState) : (Bool × VerifyDetail) × DBState :=
  match fs file_path with
  | none => ((false, VerifyDetail.fileMissing), db)
  | some fd =>
    match dbLookup db.downloads file_path with
    | none => ((false, VerifyDetail.notInDatabase), db)
    | some r =>
      if !fd.statOk then ((false, VerifyDetail.statError), db)
      else
        let actual_size := fd.content.length
        if truthyNat r.size_bytes && (actual_size != r.size_bytes.getD 0) then
          ((false, VerifyDetail.sizeMismatch (r.size_bytes.getD 0) actual_size), db)
        else if !truthyStr r.sha256 || recalculate then
          let actual_hash := _calculate_sha256 hash fd
          if actual_hash = "" then ((false, VerifyDetail.hashError), db)
          else if !truthyStr r.sha256 then
            ((true, VerifyDetail.hashSaved),
             { db with downloads :=
                 (file_path, { r with sha256 := some actual_hash, verified := true }) ::
                   dbErase db.downloads file_path })
          else if actual_hash == r.sha256.getD "" then
            ((true, VerifyDetail.fileIntact),
             { db with downloads := (file_path, setVerified r) :: dbErase db.downloads file_path })
          else
            ((false, VerifyDetail.hashMismatch (r.sha256.getD "") actual_hash), db)
        else
          let actual_hash := _calculate_sha256 hash fd
          if actual_hash = "" then ((false, VerifyDetail.hashError), db)
          else if actual_hash == r.sha256.getD "" then
            ((true, VerifyDetail.fileIntact),
             { db with downloads := (file_path, setVerified r) :: dbErase db.downloads file_path })
          else
            ((false, VerifyDetail.hashMismatch (r.sha256.getD "") actual_hash), db)

/-! ### Legacy JSON migration -/

/-- The state of the legacy `download_index.json` next to the SQLite
store.  `unparseable` covers any exception while opening or parsing it;
a `parsed` entry that is `none` is a list element that is not a string,
on which `Path(file_path)` raises inside the migration loop. -/
inductive LegacyIndex where
  | absent
  | unparseable
  | parsed (completed : List (Option String))
deriving DecidableEq

/-- The rich store together with the legacy index file and whether a
timestamped backup of it has been produced. -/
structure RichStore where
  db : DBState
  legacy : LegacyIndex
  backedUp : Bool
deriving DecidableEq

/-- File-kind detection of the migration loop. -/
def fileTypeOf (file_name : String) : String :=
  if file_name.endsWith ".mp4" || file_name.endsWith ".mkv" then "video"
  else if file_name.endsWith ".pdf" then "pdf"
  else if containsSub file_name "Resumo" || containsSub file_name "Slides"
      || containsSub file_name "Mapa" then "material"
  else "unknown"

/-- One iteration of the migration loop: derive metadata from the path
and call `mark_downloaded`. -/
def migrateEntry (hash : HashFn) (fs : FileSystem) (db : DBState) (file_path : String) : DBState :=
  let parts := pathParts file_path
  let lesson_name := if parts.length ≥ 3 then parts.getD (parts.length - 2) "Migrado" else "Migrado"
  let course_name := if parts.length ≥ 4 then parts.getD (parts.length - 3) "Migrado" else "Migrado"
  let file_type := fileTypeOf (baseName file_path)
  let size_bytes :=
    match fs file_path with
    | some fd => if fd.statOk then some fd.content.length else none
    | none => none
  mark_downloaded hash fs file_path "migrated://unknown" course_name lesson_name file_type
    size_bytes false db

/-- The migration loop over the legacy `completed` entries.  The Bool is
true when the loop finished without an exception; a `none` entry raises
(caught by the surrounding `except`), keeping the rows already inserted
by the per-call commits of `mark_downloaded`. -/
def migrateEntries (hash : HashFn) (fs : FileSystem) :
    List (Option String) → DBState → DBState × Bool
  | [], db => (db, true)
  | none :: _, db => (db, false)
  | some p :: rest, db => migrateEntries hash fs rest (migrateEntry hash fs db p)

/-- `_migrate_from_json_if_needed`: nothing when the legacy file is
absent or the store already has rows; a parse failure is caught and
leaves everything unchanged; otherwise import every entry and rename
the legacy file to a timestamped backup, unless an entry raised. -/
def _migrate_from_json_if_needed (hash : HashFn) (fs : FileSystem) (st : RichStore) : RichStore :=
  match st.legacy with
  | LegacyIndex.absent => st
  | LegacyIndex.unparseable => st
  | LegacyIndex.parsed entries =>
    if st.db.downloads.length > 0 then st
    else if entries.isEmpty then st
    else
      match migrateEntries hash fs entries st.db with
      | (db2, true) => { db := db2, legacy := LegacyIndex.absent, backedUp := true }
      | (db2, false) => { st with db := db2 }

/-! ### Flat JSON fallback loader -/

/-- What loading the flat checkpoint document can encounter. -/
inductive IndexFileState where
  | missing
  | unreadable
  | unparseable
  | parsed (completed : List String)
deriving DecidableEq

/-- `_load_json` (JSON fallback branch): the completed set, empty unless
the file exists and parses. -/
def _load_json : IndexFileState → List String
  | IndexFileState.missing => []
  | IndexFileState.unreadable => []
  | IndexFileState.unparseable => []
  | IndexFileState.parsed l => l.eraseDups

end DownloadDatabase

namespace DownloadIndex

/-- `DownloadIndex.load` from `async_downloader.py`. -/
def load : DownloadDatabase.IndexFileState → List String
  | DownloadDatabase.IndexFileState.missing => []
  | DownloadDatabase.IndexFileState.unreadable => []
  | DownloadDatabase.IndexFileState.unparseable => []
  | DownloadDatabase.IndexFileState.parsed l => l.eraseDups

/-- `DownloadIndex.is_completed`. -/
def is_completed (completed : List String) (p : String) : Bool :=
  completed.contains p

end DownloadIndex

/-! ## Transfer engine (`async_downloader.py`) -/

/-- The result of one `session.get` attempt:  a status with the streamed
body chunks, a network-class exception (`aiohttp.ClientError`,
`asyncio.TimeoutError`), or any other exception. -/
inductive NetResult where
  | response (status : Nat) (body : List (List Nat))
  | netError
  | fatalError
deriving DecidableEq

/-- Observable actions of one engine run. -/
inductive Event where
  | request (url : String) (range : Option Nat)
  | writeChunk (path : String) (chunk : List Nat)
  | renameFile (src dst : String)
  | markCompleted (path : String)
  | sleep (seconds : Nat)
deriving DecidableEq

def isRequestEv : Event → Bool
  | Event.request _ _ => true
  | _ => false

def isSleepEv : Event → Bool
  | Event.sleep _ => true
  | _ => false

def isMarkEv : Event → Bool
  | Event.markCompleted _ => true
  | _ => false

def isWriteEv : Event → Bool
  | Event.writeChunk _ _ => true
  | _ => false

def isRenameEv : Event → Bool
  | Event.renameFile _ _ => true
  | _ => false

/-- Terminal result of one task (the status message returned). -/
inductive Outcome where
  | skippedIndexed
  | skippedExists
  | resumedComplete
  | downloaded
  | failedFatal
  | failedAllRetries
deriving DecidableEq

structure DTask where
  url : String
  path : String
  filename : String
  referer : Option String
deriving DecidableEq

/-- Checkpoint set plus on-disk files, as seen by one engine run. -/
structure EngineState where
  completed : List String
  files : List (String × List Nat)
deriving DecidableEq

def MAX_RETRIES : Nat := 4

def INITIAL_RETRY_DELAY : Nat := 2

def fsWrite (fs : List (String × List Nat)) (p : String) (c : List Nat) :
    List (String × List Nat) :=
  (p, c) :: dbErase fs p

def fsRemove (fs : List (String × List Nat)) (p : String) : List (String × List Nat) :=
  dbErase fs p

/-- `os.rename src dst` (overwrites `dst`; no-op when `src` is absent,
which the source never does). -/
def fsRename (fs : List (String × List Nat)) (src dst : String) :
    List (String × List Nat) :=
  match dbLookup fs src with
  | none => fs
  | some c => fsWrite (fsRemove fs src) dst c

/-- `set.add` on the completed set. -/
def insertCompleted (completed : List String) (p : String) : List String :=
  if completed.contains p then completed else p :: completed

/-- The retry loop of `download_file_async` (`for attempt in
range(MAX_RETRIES)`), with `fuel` the attempts still available
including the current one.  Mirrors the source: resume offset from the
`.part` size, 416 handled before `raise_for_status`, statuses ≥ 400
raising a retryable `ClientResponseError`, append mode iff 206,
rename-then-mark on success, sleep-and-double only when attempts
remain, temp file deleted only on a non-network exception. -/
def attemptLoop (net : Nat → NetResult) (url path tempPath : String) :
    Nat → Nat → Nat → EngineState → List Event → Outcome × EngineState × List Event
  | _, 0, _, st, evs => (Outcome.failedAllRetries, st, evs)
  | attempt, fuel + 1, delay, st, evs =>
    let existing := dbLookup st.files tempPath
    let evs1 := evs ++ [Event.request url (existing.map List.length)]
    match net attempt with
    | NetResult.response status body =>
      if status = 416 then
        match existing with
        | some _ =>
          (Outcome.resumedComplete,
           { completed := insertCompleted st.completed path
             files := fsRename st.files tempPath path },
           evs1 ++ [Event.renameFile tempPath path, Event.markCompleted path])
        | none =>
          (Outcome.resumedComplete,
           { st with completed := insertCompleted st.completed path },
           evs1 ++ [Event.markCompleted path])
      else if 400 ≤ status then
        match fuel with
        | 0 => (Outcome.failedAllRetries, st, evs1)
        | _ + 1 =>
          attemptLoop net url path tempPath (attempt + 1) fuel (delay * 2) st
            (evs1 ++ [Event.sleep delay])
      else
        let base := if status = 206 then existing.getD [] else []
        let files2 := fsRename (fsWrite st.files tempPath (base ++ body.flatten)) tempPath path
        (Outcome.downloaded,
         { completed := insertCompleted st.completed path, files := files2 },
         evs1 ++ body.map (Event.writeChunk tempPath) ++
           [Event.renameFile tempPath path, Event.markCompleted path])
    | NetResult.netError =>
      match fuel with
      | 0 => (Outcome.failedAllRetries, st, evs1)
      | _ + 1 =>
        attemptLoop net url path tempPath (attempt + 1) fuel (delay * 2) st
          (evs1 ++ [Event.sleep delay])
    | NetResult.fatalError =>
      (Outcome.failedFatal, { st with files := fsRemove st.files tempPath }, evs1)

/-- `download_file_async`: checkpoint check, on-disk check, then the
retry loop on `path + ".part"`. -/
def download_file_async (net : Nat → NetResult) (task : DTask) (st : EngineState) :
    Outcome × EngineState × List Event :=
  if DownloadIndex.is_completed st.completed task.path then
    (Outcome.skippedIndexed, st, [])
  else if (dbLookup st.files task.path).isSome then
    (Outcome.skippedExists,
     { st with completed := insertCompleted st.completed task.path },
     [Event.markCompleted task.path])
  else
    attemptLoop net task.url task.path (task.path ++ ".part") 0 MAX_RETRIES
      INITIAL_RETRY_DELAY st []

/-! ## Threaded retry wrapper (`main.py`, `retry_with_backoff`) -/

/-- One call of the wrapped function: `(True, r)`, `(False, _)`, or an
exception propagating out of it. -/
inductive FuncResult (α : Type) where
  | ok (r : α)
  | notOk
  | raises
deriving DecidableEq

/-- The loop of `retry_with_backoff`; returns the result (`Except.error`
when the last attempt re-raises), the number of calls made, and the
sleeps performed. -/
def retryLoop {α : Type} (func : Nat → FuncResult α) :
    Nat → Nat → Nat → Except Unit (Option α) × Nat × List Nat
  | _, 0, _ => (Except.ok none, 0, [])
  | attempt, fuel + 1, delay =>
    match func attempt with
    | FuncResult.ok r => (Except.ok (some r), 1, [])
    | FuncResult.notOk =>
      match fuel with
      | 0 => (Except.ok none, 1, [])
      | _ + 1 =>
        let rest := retryLoop func (attempt + 1) fuel (delay * 2)
        (rest.1, rest.2.1 + 1, delay :: rest.2.2)
    | FuncResult.raises =>
      match fuel with
      | 0 => (Except.error (), 1, [])
      | _ + 1 =>
        let rest := retryLoop func (attempt + 1) fuel (delay * 2)
        (rest.1, rest.2.1 + 1, delay :: rest.2.2)

/-- `retry_with_backoff(func, max_retries, initial_delay)`. -/
def retry_with_backoff {α : Type} (func : Nat → FuncResult α)
    (max_retries initial_delay : Nat) : Except Unit (Option α) × Nat × List Nat :=
  retryLoop func 0 max_retries initial_delay

/-! ## Argument bundle for repeated `mark_downloaded` calls -/

structure MarkArgs where
  url : String
  course_name : String
  lesson_name : String
  file_type : String
  size_bytes : Option Nat
  calculate_hash : Bool

def applyMark (hash : HashFn) (fs : FileSystem) (p : String) (db : DBState)
    (a : MarkArgs) : DBState :=
  DownloadDatabase.mark_downloaded hash fs p a.url a.course_name a.lesson_name
    a.file_type a.size_bytes a.calculate_hash db

/-- Repeated marking of the same path, one call per argument bundle. -/
def markMany (hash : HashFn) (fs : FileSystem) (p : String)
    (calls : List MarkArgs) (db : DBState) : DBState :=
  calls.foldl (applyMark hash fs p) db

/-! ## Association-list lemmas -/

theorem dbLookup_cons {α : Type} (k : String) (v : α) (l : List (String × α)) (p : String) :
    dbLookup ((k, v) :: l) p = if k = p then some v else dbLookup l p := rfl

theorem dbLookup_erase_self {α : Type} (l : List (String × α)) (p : String) :
    dbLookup (dbErase l p) p = none := by
  induction l with
  | nil => rfl
  | cons e rest ih =>
    obtain ⟨k, v⟩ := e
    by_cases hk : k = p
    · simpa [dbErase, List.filter_cons, hk] using ih
    · simpa [dbErase, List.filter_cons, hk, dbLookup_cons] using ih

theorem dbLookup_erase_ne {α : Type} (l : List (String × α)) (p q : String) (h : q ≠ p) :
    dbLookup (dbErase l p) q = dbLookup l q := by
  induction l with
  | nil => rfl
  | cons e rest ih =>
    obtain ⟨k, v⟩ := e
    by_cases hk : k = p
    · have hpq : p ≠ q := fun hh => h hh.symm
      simpa [dbErase, List.filter_cons, hk, dbLookup_cons, hpq] using ih
    · by_cases hq : k = q
      · simp [dbErase, List.filter_cons, hk, dbLookup_cons, hq, h]
      · simpa [dbErase, List.filter_cons, hk, dbLookup_cons, hq] using ih

theorem dbErase_eq_self {α : Type} (l : List (String × α)) (p : String)
    (h : dbLookup l p = none) : dbErase l p = l := by
  induction l with
  | nil => rfl
  | cons e rest ih =>
    obtain ⟨k, v⟩ := e
    rw [dbLookup_cons] at h
    by_cases hk : k = p
    · simp [hk] at h
    · rw [if_neg hk] at h
      have hrest : rest.filter (fun e => e.1 != p) = rest := ih h
      have hcond : ((k, v).1 != p) = true := by simp [hk]
      simp only [dbErase, List.filter_cons, hcond, if_true, hrest]

/-! ## Lemmas about `mark_downloaded` -/

namespace DownloadDatabase

theorem update_statistics_total_files (ft : String) (sz : Option Nat) (s : Statistics) :
    (_update_statistics ft sz s).total_files = s.total_files + 1 := by
  unfold _update_statistics
  dsimp only
  by_cases h1 : truthyNat sz = true <;>
    by_cases h2 : ft = "video" <;>
    by_cases h3 : ft = "pdf" <;>
    by_cases h4 : ft = "material" <;>
    simp [h1, h2, h3, h4]

theorem mark_lookup_self (hash : HashFn) (fs : FileSystem)
    (p url cn ln ft : String) (sz : Option Nat) (ch : Bool) (db : DBState) :
    dbLookup (mark_downloaded hash fs p url cn ln ft sz ch db).downloads p
      = some (buildRecord hash fs p url cn ln ft sz ch) := by
  simp [mark_downloaded, dbLookup_cons]

theorem mark_lookup_ne (hash : HashFn) (fs : FileSystem)
    (p url cn ln ft : String) (sz : Option Nat) (ch : Bool) (db : DBState)
    (q : String) (h : q ≠ p) :
    dbLookup (mark_downloaded hash fs p url cn ln ft sz ch db).downloads q
      = dbLookup db.downloads q := by
  have hp : p ≠ q := fun hpq => h hpq.symm
  simp [mark_downloaded, dbLookup_cons, hp, dbLookup_erase_ne _ _ _ h]

theorem mark_stats_absent (hash : HashFn) (fs : FileSystem)
    (p url cn ln ft : String) (sz : Option Nat) (ch : Bool) (db : DBState)
    (h : dbLookup db.downloads p = none) :
    (mark_downloaded hash fs p url cn ln ft sz ch db).stats
      = _update_statistics ft (effectiveSize fs p sz) db.stats := by
  simp [mark_downloaded, h]

theorem mark_stats_present (hash : HashFn) (fs : FileSystem)
    (p url cn ln ft : String) (sz : Option Nat) (ch : Bool) (db : DBState)
    (h : (dbLookup db.downloads p).isSome = true) :
    (mark_downloaded hash fs p url cn ln ft sz ch db).stats = db.stats := by
  simp [mark_downloaded, h]

theorem mark_length_absent (hash : HashFn) (fs : FileSystem)
    (p url cn ln ft : String) (sz : Option Nat) (ch : Bool) (db : DBState)
    (h : dbLookup db.downloads p = none) :
    (mark_downloaded hash fs p url cn ln ft sz ch db).downloads.length
      = db.downloads.length + 1 := by
  simp [mark_downloaded, dbErase_eq_self _ _ h]

end DownloadDatabase

/-- Once a row for `p` exists, further marks never change the statistics
and the final row is the one built from the last call. -/
theorem markMany_present (hash : HashFn) (fs : FileSystem) (p : String) :
    ∀ (calls : List MarkArgs) (db : DBState),
      (dbLookup db.downloads p).isSome = true →
      (markMany hash fs p calls db).stats = db.stats ∧
      dbLookup (markMany hash fs p calls db).downloads p =
        (match calls.getLast? with
         | none => dbLookup db.downloads p
         | some a => some (DownloadDatabase.buildRecord hash fs p a.url a.course_name
             a.lesson_name a.file_type a.size_bytes a.calculate_hash)) := by
  intro calls
  induction calls with
  | nil => intro db h; exact ⟨rfl, rfl⟩
  | cons c rest ih =>
    intro db h
    have hsome : (dbLookup (applyMark hash fs p db c).downloads p).isSome = true := by
      simp only [applyMark]
      rw [DownloadDatabase.mark_lookup_self]
      rfl
    obtain ⟨hstats, hlook⟩ := ih (applyMark hash fs p db c) hsome
    have hstatsC : (applyMark hash fs p db c).stats = db.stats := by
      simp only [applyMark]
      exact DownloadDatabase.mark_stats_present hash fs p c.url c.course_name
        c.lesson_name c.file_type c.size_bytes c.calculate_hash db h
    constructor
    · show (markMany hash fs p rest (applyMark hash fs p db c)).stats = db.stats
      rw [hstats, hstatsC]
    · show dbLookup (markMany hash fs p rest (applyMark hash fs p db c)).downloads p = _
      rw [hlook]
      cases rest with
      | nil =>
        show dbLookup (applyMark hash fs p db c).downloads p
            = some (DownloadDatabase.buildRecord hash fs p c.url c.course_name
                c.lesson_name c.file_type c.size_bytes c.calculate_hash)
        simp only [applyMark]
        exact DownloadDatabase.mark_lookup_self hash fs p c.url c.course_name
          c.lesson_name c.file_type c.size_bytes c.calculate_hash db
      | cons r rs =>
        rw [List.getLast?_cons_cons]
        cases hgl : (r :: rs).getLast? with
        | none => exact absurd (List.getLast?_eq_none_iff.mp hgl) (List.cons_ne_nil r rs)
        | some a => rfl

/-- C1: for every path `p` and store state with no prior record for `p`,
any sequence of one or more `mark_downloaded` calls for `p` increments
`total_files` by exactly 1 (not by the number of calls), while the
record for `p` is inserted or replaced on every call, so that after the
run it is the record built from the last call's arguments. -/
theorem c1_duplicate_marks_do_not_inflate_statistics (hash : HashFn) (fs : FileSystem)
    (p : String) (calls : List MarkArgs) (a : MarkArgs) (db : DBState)
    (habsent : dbLookup db.downloads p = none)
    (hlast : calls.getLast? = some a) :
    (markMany hash fs p calls db).stats.total_files = db.stats.total_files + 1 ∧
    dbLookup (markMany hash fs p calls db).downloads p =
      some (DownloadDatabase.buildRecord hash fs p a.url a.course_name a.lesson_name
        a.file_type a.size_bytes a.calculate_hash) := by
  cases calls with
  | nil => simp at hlast
  | cons c rest =>
    have hsome : (dbLookup (applyMark hash fs p db c).downloads p).isSome = true := by
      simp only [applyMark]
      rw [DownloadDatabase.mark_lookup_self]
      rfl
    obtain ⟨hstats, hlook⟩ := markMany_present hash fs p rest (applyMark hash fs p db c) hsome
    have hstatsC : (applyMark hash fs p db c).stats
        = DownloadDatabase._update_statistics c.file_type
            (DownloadDatabase.effectiveSize fs p c.size_bytes) db.stats := by
      simp only [applyMark]
      exact DownloadDatabase.mark_stats_absent hash fs p c.url c.course_name
        c.lesson_name c.file_type c.size_bytes c.calculate_hash db habsent
    constructor
    · show (markMany hash fs p rest (applyMark hash fs p db c)).stats.total_files = _
      rw [hstats, hstatsC, DownloadDatabase.update_statistics_total_files]
    · show dbLookup (markMany hash fs p rest (applyMark hash fs p db c)).downloads p = _
      rw [hlook]
      cases rest with
      | nil =>
        have hac : c = a := by simpa using hlast
        subst hac
        show dbLookup (applyMark hash fs p db c).downloads p = _
        simp only [applyMark]
        exact DownloadDatabase.mark_lookup_self hash fs p c.url c.course_name
          c.lesson_name c.file_type c.size_bytes c.calculate_hash db
      | cons r rs =>
        rw [List.getLast?_cons_cons] at hlast
        rw [hlast]

/-- Witness for C1: marking the same path twice, starting from a store
with 5 files counted and no record for the path, yields 6, not 7. -/
theorem c1_witness :
    (markMany (fun _ => "h") (fun _ => none) "/b/f.pdf"
        [⟨"u", "c", "l", "pdf", some 10, false⟩, ⟨"u", "c", "l", "pdf", some 10, false⟩]
        (⟨[], ⟨5, 0, 0, 0, 0⟩⟩ : DBState)).stats.total_files
      = (⟨[], ⟨5, 0, 0, 0, 0⟩⟩ : DBState).stats.total_files + 1 ∧
    dbLookup (markMany (fun _ => "h") (fun _ => none) "/b/f.pdf"
        [⟨"u", "c", "l", "pdf", some 10, false⟩, ⟨"u", "c", "l", "pdf", some 10, false⟩]
        (⟨[], ⟨5, 0, 0, 0, 0⟩⟩ : DBState)).downloads "/b/f.pdf"
      = some (DownloadDatabase.buildRecord (fun _ => "h") (fun _ => none) "/b/f.pdf"
          "u" "c" "l" "pdf" (some 10) false) :=
  c1_duplicate_marks_do_not_inflate_statistics (fun _ => "h") (fun _ => none) "/b/f.pdf"
    [⟨"u", "c", "l", "pdf", some 10, false⟩, ⟨"u", "c", "l", "pdf", some 10, false⟩]
    ⟨"u", "c", "l", "pdf", some 10, false⟩ ⟨[], ⟨5, 0, 0, 0, 0⟩⟩ rfl rfl

/-! ## Engine lemmas -/

theorem temp_path_ne (p : String) : p ++ ".part" ≠ p := by
  intro h
  have hlen := congrArg String.length h
  rw [String.length_append] at hlen
  have h5 : (".part" : String).length = 5 := rfl
  rw [h5] at hlen
  omega

theorem fsWrite_lookup_self (fs : List (String × List Nat)) (p : String) (c : List Nat) :
    dbLookup (fsWrite fs p c) p = some c := by
  simp [fsWrite, dbLookup_cons]

theorem fsWrite_lookup_ne (fs : List (String × List Nat)) (p : String) (c : List Nat)
    (q : String) (h : q ≠ p) : dbLookup (fsWrite fs p c) q = dbLookup fs q := by
  have hp : p ≠ q := fun hh => h hh.symm
  simp [fsWrite, dbLookup_cons, hp, dbLookup_erase_ne _ _ _ h]

theorem attemptLoop_416_some (net : Nat → NetResult) (url path tempPath : String)
    (attempt f delay : Nat) (st : EngineState) (evs : List Event)
    (body : List (List Nat)) (c : List Nat)
    (hnet : net attempt = NetResult.response 416 body)
    (hex : dbLookup st.files tempPath = some c) :
    attemptLoop net url path tempPath attempt (f + 1) delay st evs =
      (Outcome.resumedComplete,
       { completed := insertCompleted st.completed path
         files := fsRename st.files tempPath path },
       evs ++ [Event.request url (some c.length), Event.renameFile tempPath path,
         Event.markCompleted path]) := by
  simp [attemptLoop, hnet, hex]

theorem attemptLoop_416_none (net : Nat → NetResult) (url path tempPath : String)
    (attempt f delay : Nat) (st : EngineState) (evs : List Event)
    (body : List (List Nat))
    (hnet : net attempt = NetResult.response 416 body)
    (hex : dbLookup st.files tempPath = none) :
    attemptLoop net url path tempPath attempt (f + 1) delay st evs =
      (Outcome.resumedComplete,
       { st with completed := insertCompleted st.completed path },
       evs ++ [Event.request url none, Event.markCompleted path]) := by
  simp [attemptLoop, hnet, hex]

theorem attemptLoop_ok (net : Nat → NetResult) (url path tempPath : String)
    (attempt f delay : Nat) (st : EngineState) (evs : List Event)
    (status : Nat) (body : List (List Nat))
    (hnet : net attempt = NetResult.response status body)
    (h416 : status ≠ 416) (h400 : ¬ 400 ≤ status) :
    attemptLoop net url path tempPath attempt (f + 1) delay st evs =
      (Outcome.downloaded,
       { completed := insertCompleted st.completed path
         files := fsRename
           (fsWrite st.files tempPath
             ((if status = 206 then (dbLookup st.files tempPath).getD [] else []) ++
               body.flatten))
           tempPath path },
       evs ++ [Event.request url ((dbLookup st.files tempPath).map List.length)] ++
         body.map (Event.writeChunk tempPath) ++
         [Event.renameFile tempPath path, Event.markCompleted path]) := by
  simp [attemptLoop, hnet, h416, h400, List.append_assoc]

theorem attemptLoop_http_cont (net : Nat → NetResult) (url path tempPath : String)
    (attempt f delay : Nat) (st : EngineState) (evs : List Event)
    (status : Nat) (body : List (List Nat))
    (hnet : net attempt = NetResult.response status body)
    (h416 : status ≠ 416) (h400 : 400 ≤ status) :
    attemptLoop net url path tempPath attempt (f + 1 + 1) delay st evs =
      attemptLoop net url path tempPath (attempt + 1) (f + 1) (delay * 2) st
        (evs ++ [Event.request url ((dbLookup st.files tempPath).map List.length),
          Event.sleep delay]) := by
  simp [attemptLoop, hnet, h416, h400, List.append_assoc]

theorem attemptLoop_http_last (net : Nat → NetResult) (url path tempPath : String)
    (attempt delay : Nat) (st : EngineState) (evs : List Event)
    (status : Nat) (body : List (List Nat))
    (hnet : net attempt = NetResult.response status body)
    (h416 : status ≠ 416) (h400 : 400 ≤ status) :
    attemptLoop net url path tempPath attempt (0 + 1) delay st evs =
      (Outcome.failedAllRetries, st,
       evs ++ [Event.request url ((dbLookup st.files tempPath).map List.length)]) := by
  simp [attemptLoop, hnet, h416, h400]

theorem attemptLoop_netError_cont (net : Nat → NetResult) (url path tempPath : String)
    (attempt f delay : Nat) (st : EngineState) (evs : List Event)
    (hnet : net attempt = NetResult.netError) :
    attemptLoop net url path tempPath attempt (f + 1 + 1) delay st evs =
      attemptLoop net url path tempPath (attempt + 1) (f + 1) (delay * 2) st
        (evs ++ [Event.request url ((dbLookup st.files tempPath).map List.length),
          Event.sleep delay]) := by
  simp [attemptLoop, hnet, List.append_assoc]

theorem attemptLoop_netError_last (net : Nat → NetResult) (url path tempPath : String)
    (attempt delay : Nat) (st : EngineState) (evs : List Event)
    (hnet : net attempt = NetResult.netError) :
    attemptLoop net url path tempPath attempt (0 + 1) delay st evs =
      (Outcome.failedAllRetries, st,
       evs ++ [Event.request url ((dbLookup st.files tempPath).map List.length)]) := by
  simp [attemptLoop, hnet]

theorem attemptLoop_tail3_netError (net : Nat → NetResult) (url path tempPath : String)
    (st : EngineState) (h3 : net 3 = NetResult.netError) (evs : List Event) :
    attemptLoop net url path tempPath 3 1 16 st evs =
      (Outcome.failedAllRetries, st,
       evs ++ [Event.request url ((dbLookup st.files tempPath).map List.length)]) := by
  show attemptLoop net url path tempPath 3 (0 + 1) 16 st evs = _
  exact attemptLoop_netError_last net url path tempPath 3 16 st evs h3

theorem attemptLoop_tail2_netError (net : Nat → NetResult) (url path tempPath : String)
    (st : EngineState) (h2 : net 2 = NetResult.netError) (h3 : net 3 = NetResult.netError)
    (evs : List Event) :
    attemptLoop net url path tempPath 2 2 8 st evs =
      (Outcome.failedAllRetries, st,
       (evs ++ [Event.request url ((dbLookup st.files tempPath).map List.length),
         Event.sleep 8]) ++
        [Event.request url ((dbLookup st.files tempPath).map List.length)]) := by
  show attemptLoop net url path tempPath 2 (0 + 1 + 1) 8 st evs = _
  rw [attemptLoop_netError_cont net url path tempPath 2 0 8 st evs h2]
  have hb : attemptLoop net url path tempPath (2 + 1) (0 + 1) (8 * 2) st
      (evs ++ [Event.request url ((dbLookup st.files tempPath).map List.length),
        Event.sleep 8]) =
      (Outcome.failedAllRetries, st,
       (evs ++ [Event.request url ((dbLookup st.files tempPath).map List.length),
         Event.sleep 8]) ++
        [Event.request url ((dbLookup st.files tempPath).map List.length)]) :=
    attemptLoop_tail3_netError net url path tempPath st h3 _
  rw [hb]

theorem attemptLoop_tail1_netError (net : Nat → NetResult) (url path tempPath : String)
    (st : EngineState) (h1 : net 1 = NetResult.netError) (h2 : net 2 = NetResult.netError)
    (h3 : net 3 = NetResult.netError) (evs : List Event) :
    attemptLoop net url path tempPath 1 3 4 st evs =
      (Outcome.failedAllRetries, st,
       ((evs ++ [Event.request url ((dbLookup st.files tempPath).map List.length),
          Event.sleep 4]) ++
         [Event.request url ((dbLookup st.files tempPath).map List.length),
          Event.sleep 8]) ++
        [Event.request url ((dbLookup st.files tempPath).map List.length)]) := by
  show attemptLoop net url path tempPath 1 (1 + 1 + 1) 4 st evs = _
  rw [attemptLoop_netError_cont net url path tempPath 1 1 4 st evs h1]
  have hb : attemptLoop net url path tempPath (1 + 1) (1 + 1) (4 * 2) st
      (evs ++ [Event.request url ((dbLookup st.files tempPath).map List.length),
        Event.sleep 4]) =
      (Outcome.failedAllRetries, st,
       ((evs ++ [Event.request url ((dbLookup st.files tempPath).map List.length),
          Event.sleep 4]) ++
         [Event.request url ((dbLookup st.files tempPath).map List.length),
          Event.sleep 8]) ++
        [Event.request url ((dbLookup st.files tempPath).map List.length)]) :=
    attemptLoop_tail2_netError net url path tempPath st h2 h3 _
  rw [hb]

/-- With four network-class failures in a row the loop makes exactly 4
requests, sleeps 2, 4 and 8 between them, leaves the state untouched
and returns the exhaustion failure. -/
theorem attemptLoop_four_netErrors (net : Nat → NetResult) (url path tempPath : String)
    (st : EngineState) (h0 : net 0 = NetResult.netError) (h1 : net 1 = NetResult.netError)
    (h2 : net 2 = NetResult.netError) (h3 : net 3 = NetResult.netError) :
    attemptLoop net url path tempPath 0 4 2 st [] =
      (Outcome.failedAllRetries, st,
       [Event.request url ((dbLookup st.files tempPath).map List.length), Event.sleep 2,
        Event.request url ((dbLookup st.files tempPath).map List.length), Event.sleep 4,
        Event.request url ((dbLookup st.files tempPath).map List.length), Event.sleep 8,
        Event.request url ((dbLookup st.files tempPath).map List.length)]) := by
  show attemptLoop net url path tempPath 0 (2 + 1 + 1) 2 st [] = _
  rw [attemptLoop_netError_cont net url path tempPath 0 2 2 st [] h0]
  have hb : attemptLoop net url path tempPath (0 + 1) (2 + 1) (2 * 2) st
      ([] ++ [Event.request url ((dbLookup st.files tempPath).map List.length),
        Event.sleep 2]) =
      (Outcome.failedAllRetries, st,
       ((([] ++ [Event.request url ((dbLookup st.files tempPath).map List.length),
           Event.sleep 2]) ++
          [Event.request url ((dbLookup st.files tempPath).map List.length),
           Event.sleep 4]) ++
         [Event.request url ((dbLookup st.files tempPath).map List.length),
          Event.sleep 8]) ++
        [Event.request url ((dbLookup st.files tempPath).map List.length)]) :=
    attemptLoop_tail1_netError net url path tempPath st h1 h2 h3 _
  rw [hb]
  rfl

theorem attemptLoop_fatal (net : Nat → NetResult) (url path tempPath : String)
    (attempt f delay : Nat) (st : EngineState) (evs : List Event)
    (hnet : net attempt = NetResult.fatalError) :
    attemptLoop net url path tempPath attempt (f + 1) delay st evs =
      (Outcome.failedFatal, { st with files := fsRemove st.files tempPath },
       evs ++ [Event.request url ((dbLookup st.files tempPath).map List.length)]) := by
  simp [attemptLoop, hnet]

/-! ## Retry wrapper lemmas (`retry_with_backoff`) -/

theorem retryLoop_notOk_cont {α : Type} (func : Nat → FuncResult α) (attempt f delay : Nat)
    (h : func attempt = FuncResult.notOk) :
    retryLoop func attempt (f + 1 + 1) delay =
      ((retryLoop func (attempt + 1) (f + 1) (delay * 2)).1,
       (retryLoop func (attempt + 1) (f + 1) (delay * 2)).2.1 + 1,
       delay :: (retryLoop func (attempt + 1) (f + 1) (delay * 2)).2.2) := by
  simp [retryLoop, h]

theorem retryLoop_notOk_last {α : Type} (func : Nat → FuncResult α) (attempt delay : Nat)
    (h : func attempt = FuncResult.notOk) :
    retryLoop func attempt (0 + 1) delay = (Except.ok none, 1, []) := by
  simp [retryLoop, h]

theorem retryLoop_raises_cont {α : Type} (func : Nat → FuncResult α) (attempt f delay : Nat)
    (h : func attempt = FuncResult.raises) :
    retryLoop func attempt (f + 1 + 1) delay =
      ((retryLoop func (attempt + 1) (f + 1) (delay * 2)).1,
       (retryLoop func (attempt + 1) (f + 1) (delay * 2)).2.1 + 1,
       delay :: (retryLoop func (attempt + 1) (f + 1) (delay * 2)).2.2) := by
  simp [retryLoop, h]

theorem retryLoop_raises_last {α : Type} (func : Nat → FuncResult α) (attempt delay : Nat)
    (h : func attempt = FuncResult.raises) :
    retryLoop func attempt (0 + 1) delay = (Except.error (), 1, []) := by
  simp [retryLoop, h]

/-- Four not-success results in a row: the wrapper calls the function
exactly 4 times, sleeps 2, 4 and 8, and returns None (a reported
failure, no exception). -/
theorem retry_four_notOk {α : Type} (func : Nat → FuncResult α)
    (h0 : func 0 = FuncResult.notOk) (h1 : func 1 = FuncResult.notOk)
    (h2 : func 2 = FuncResult.notOk) (h3 : func 3 = FuncResult.notOk) :
    retry_with_backoff func 4 2 = (Except.ok none, 4, [2, 4, 8]) := by
  have e3 : retryLoop func (2 + 1) (0 + 1) (8 * 2) = (Except.ok none, 1, []) :=
    retryLoop_notOk_last func 3 16 h3
  have e2 : retryLoop func (1 + 1) (1 + 1) (4 * 2) = (Except.ok none, 2, [8]) := by
    show retryLoop func 2 (0 + 1 + 1) 8 = _
    rw [retryLoop_notOk_cont func 2 0 8 h2, e3]
  have e1 : retryLoop func (0 + 1) (2 + 1) (2 * 2) = (Except.ok none, 3, [4, 8]) := by
    show retryLoop func 1 (1 + 1 + 1) 4 = _
    rw [retryLoop_notOk_cont func 1 1 4 h1, e2]
  show retryLoop func 0 (2 + 1 + 1) 2 = _
  rw [retryLoop_notOk_cont func 0 2 2 h0, e1]

/-- Four raising calls in a row: the wrapper calls the function exactly
4 times, sleeping between calls, and re-raises only on the last. -/
theorem retry_four_raises {α : Type} (func : Nat → FuncResult α)
    (h0 : func 0 = FuncResult.raises) (h1 : func 1 = FuncResult.raises)
    (h2 : func 2 = FuncResult.raises) (h3 : func 3 = FuncResult.raises) :
    retry_with_backoff func 4 2 = (Except.error (), 4, [2, 4, 8]) := by
  have e3 : retryLoop func (2 + 1) (0 + 1) (8 * 2) = (Except.error (), 1, []) :=
    retryLoop_raises_last func 3 16 h3
  have e2 : retryLoop func (1 + 1) (1 + 1) (4 * 2) = (Except.error (), 2, [8]) := by
    show retryLoop func 2 (0 + 1 + 1) 8 = _
    rw [retryLoop_raises_cont func 2 0 8 h2, e3]
  have e1 : retryLoop func (0 + 1) (2 + 1) (2 * 2) = (Except.error (), 3, [4, 8]) := by
    show retryLoop func 1 (1 + 1 + 1) 4 = _
    rw [retryLoop_raises_cont func 1 1 4 h1, e2]
  show retryLoop func 0 (2 + 1 + 1) 2 = _
  rw [retryLoop_raises_cont func 0 2 2 h0, e1]

/-- C10: when the flat checkpoint document is missing, unreadable, or
not parseable as JSON, both the flat loader and the rich backend's JSON
fallback loader yield an empty completed set without raising, and every
path is then reported as not downloaded. -/
theorem c10_flat_loader_failure_yields_empty_set :
    (DownloadIndex.load DownloadDatabase.IndexFileState.missing = [] ∧
     DownloadIndex.load DownloadDatabase.IndexFileState.unreadable = [] ∧
     DownloadIndex.load DownloadDatabase.IndexFileState.unparseable = []) ∧
    (∀ p, DownloadIndex.is_completed
      (DownloadIndex.load DownloadDatabase.IndexFileState.missing) p = false) ∧
    (∀ p, DownloadIndex.is_completed
      (DownloadIndex.load DownloadDatabase.IndexFileState.unreadable) p = false) ∧
    (∀ p, DownloadIndex.is_completed
      (DownloadIndex.load DownloadDatabase.IndexFileState.unparseable) p = false) ∧
    (DownloadDatabase._load_json DownloadDatabase.IndexFileState.missing = [] ∧
     DownloadDatabase._load_json DownloadDatabase.IndexFileState.unreadable = [] ∧
     DownloadDatabase._load_json DownloadDatabase.IndexFileState.unparseable = []) :=
  ⟨⟨rfl, rfl, rfl⟩, fun _ => rfl, fun _ => rfl, fun _ => rfl, ⟨rfl, rfl, rfl⟩⟩

/-- C2: a task whose path is already in the checkpoint store is returned
as Skipped with no network request and no mutation of store or disk;
a task absent from the store whose destination file exists on disk is
marked in the store and returned as Skipped, again with no request. -/
theorem c2_skip_paths_issue_no_request (net : Nat → NetResult) (task : DTask)
    (st : EngineState) :
    (DownloadIndex.is_completed st.completed task.path = true →
      download_file_async net task st = (Outcome.skippedIndexed, st, []) ∧
      (download_file_async net task st).2.2.filter isRequestEv = []) ∧
    (DownloadIndex.is_completed st.completed task.path = false →
      (dbLookup st.files task.path).isSome = true →
      download_file_async net task st =
        (Outcome.skippedExists,
         { st with completed := insertCompleted st.completed task.path },
         [Event.markCompleted task.path]) ∧
      (download_file_async net task st).2.2.filter isRequestEv = []) := by
  constructor
  · intro h
    have he : download_file_async net task st = (Outcome.skippedIndexed, st, []) := by
      simp [download_file_async, h]
    exact ⟨he, by rw [he]; rfl⟩
  · intro h hfs
    have he : download_file_async net task st =
        (Outcome.skippedExists,
         { st with completed := insertCompleted st.completed task.path },
         [Event.markCompleted task.path]) := by
      simp [download_file_async, h, hfs]
    refine ⟨he, ?_⟩
    rw [he]
    rfl

/-- Witness for C2: a path already indexed is skipped untouched, and a
path present only on disk is marked and skipped, both with no request. -/
theorem c2_witness :
    (download_file_async (fun _ => NetResult.netError)
        (⟨"u", "/d/a.mp4", "a.mp4", none⟩ : DTask) (⟨["/d/a.mp4"], []⟩ : EngineState) =
        (Outcome.skippedIndexed, (⟨["/d/a.mp4"], []⟩ : EngineState), []) ∧
      (download_file_async (fun _ => NetResult.netError)
        (⟨"u", "/d/a.mp4", "a.mp4", none⟩ : DTask)
        (⟨["/d/a.mp4"], []⟩ : EngineState)).2.2.filter isRequestEv = []) ∧
    (download_file_async (fun _ => NetResult.netError)
        (⟨"u", "/d/b.mp4", "b.mp4", none⟩ : DTask)
        (⟨[], [("/d/b.mp4", [1])]⟩ : EngineState) =
        (Outcome.skippedExists, (⟨["/d/b.mp4"], [("/d/b.mp4", [1])]⟩ : EngineState),
         [Event.markCompleted "/d/b.mp4"]) ∧
      (download_file_async (fun _ => NetResult.netError)
        (⟨"u", "/d/b.mp4", "b.mp4", none⟩ : DTask)
        (⟨[], [("/d/b.mp4", [1])]⟩ : EngineState)).2.2.filter isRequestEv = []) :=
  ⟨(c2_skip_paths_issue_no_request (fun _ => NetResult.netError)
      ⟨"u", "/d/a.mp4", "a.mp4", none⟩ ⟨["/d/a.mp4"], []⟩).1 (by decide),
   (c2_skip_paths_issue_no_request (fun _ => NetResult.netError)
      ⟨"u", "/d/b.mp4", "b.mp4", none⟩ ⟨[], [("/d/b.mp4", [1])]⟩).2 (by decide) (by decide)⟩

/-- C3: when the temp file exists with size S and the task is not yet
indexed or on disk, the request carries resume offset S (header Range
bytes S to end); on a 416 response the temp file is renamed to the
destination, the path is marked, the outcome is resumed-complete, and
no body bytes are written. -/
theorem c3_resume_offset_and_416_rename (net : Nat → NetResult) (task : DTask)
    (st : EngineState) (content : List Nat) (body : List (List Nat))
    (hidx : DownloadIndex.is_completed st.completed task.path = false)
    (hdisk : dbLookup st.files task.path = none)
    (htemp : dbLookup st.files (task.path ++ ".part") = some content)
    (hnet : net 0 = NetResult.response 416 body) :
    download_file_async net task st =
      (Outcome.resumedComplete,
       { completed := insertCompleted st.completed task.path
         files := fsRename st.files (task.path ++ ".part") task.path },
       [Event.request task.url (some content.length),
        Event.renameFile (task.path ++ ".part") task.path,
        Event.markCompleted task.path]) ∧
    dbLookup (download_file_async net task st).2.1.files task.path = some content ∧
    dbLookup (download_file_async net task st).2.1.files (task.path ++ ".part") = none ∧
    (download_file_async net task st).2.2.filter isWriteEv = [] := by
  have hds : (dbLookup st.files task.path).isSome = false := by rw [hdisk]; rfl
  have he : download_file_async net task st =
      (Outcome.resumedComplete,
       { completed := insertCompleted st.completed task.path
         files := fsRename st.files (task.path ++ ".part") task.path },
       [Event.request task.url (some content.length),
        Event.renameFile (task.path ++ ".part") task.path,
        Event.markCompleted task.path]) := by
    rw [download_file_async, hidx]
    rw [if_neg (by simp)]
    rw [if_neg (by rw [hds]; simp)]
    show attemptLoop net task.url task.path (task.path ++ ".part") 0 (3 + 1) 2 st [] = _
    rw [attemptLoop_416_some net task.url task.path (task.path ++ ".part") 0 3 2 st []
      body content hnet htemp]
    rfl
  have hren : fsRename st.files (task.path ++ ".part") task.path
      = fsWrite (fsRemove st.files (task.path ++ ".part")) task.path content := by
    simp [fsRename, htemp]
  refine ⟨he, ?_, ?_, ?_⟩
  · rw [he]
    show dbLookup (fsRename st.files (task.path ++ ".part") task.path) task.path = some content
    rw [hren, fsWrite_lookup_self]
  · rw [he]
    show dbLookup (fsRename st.files (task.path ++ ".part") task.path)
      (task.path ++ ".part") = none
    rw [hren, fsWrite_lookup_ne _ _ _ _ (temp_path_ne task.path), fsRemove,
      dbLookup_erase_self]
  · rw [he]
    rfl

/-- Witness for C3: a fresh task with a 2-byte temp file and a 416
response is finished by renaming the temp file, with no body writes. -/
theorem c3_witness :
    download_file_async (fun _ => NetResult.response 416 [[7]])
        (⟨"u", "/d/c.mp4", "c.mp4", none⟩ : DTask)
        (⟨[], [("/d/c.mp4.part", [4, 5])]⟩ : EngineState) =
      (Outcome.resumedComplete,
       { completed := insertCompleted ([] : List String) "/d/c.mp4"
         files := fsRename [("/d/c.mp4.part", [4, 5])] ("/d/c.mp4" ++ ".part") "/d/c.mp4" },
       [Event.request "u" (some ([4, 5] : List Nat).length),
        Event.renameFile ("/d/c.mp4" ++ ".part") "/d/c.mp4",
        Event.markCompleted "/d/c.mp4"]) ∧
    dbLookup (download_file_async (fun _ => NetResult.response 416 [[7]])
        (⟨"u", "/d/c.mp4", "c.mp4", none⟩ : DTask)
        (⟨[], [("/d/c.mp4.part", [4, 5])]⟩ : EngineState)).2.1.files "/d/c.mp4" = some [4, 5] ∧
    dbLookup (download_file_async (fun _ => NetResult.response 416 [[7]])
        (⟨"u", "/d/c.mp4", "c.mp4", none⟩ : DTask)
        (⟨[], [("/d/c.mp4.part", [4, 5])]⟩ : EngineState)).2.1.files ("/d/c.mp4" ++ ".part") = none ∧
    (download_file_async (fun _ => NetResult.response 416 [[7]])
        (⟨"u", "/d/c.mp4", "c.mp4", none⟩ : DTask)
        (⟨[], [("/d/c.mp4.part", [4, 5])]⟩ : EngineState)).2.2.filter isWriteEv = [] :=
  c3_resume_offset_and_416_rename (fun _ => NetResult.response 416 [[7]])
    ⟨"u", "/d/c.mp4", "c.mp4", none⟩ ⟨[], [("/d/c.mp4.part", [4, 5])]⟩ [4, 5] [[7]]
    (by decide) (by decide) (by decide) rfl

/-- C4: a task whose attempts all fail with network-class errors makes
exactly 4 requests (never a 5th), sleeping 2, 4 and 8 time units before
attempts 2, 3 and 4, and ends in a reported Failed outcome with the
state untouched; the threaded wrapper `retry_with_backoff` shows the
same count and delays, returning None instead of raising. -/
theorem c4_exactly_four_attempts_with_doubling_backoff {α : Type}
    (net : Nat → NetResult) (task : DTask) (st : EngineState)
    (func : Nat → FuncResult α)
    (hidx : DownloadIndex.is_completed st.completed task.path = false)
    (hdisk : dbLookup st.files task.path = none)
    (hnet : ∀ k, k < 4 → net k = NetResult.netError)
    (hfunc : ∀ k, k < 4 → func k = FuncResult.notOk) :
    (download_file_async net task st).1 = Outcome.failedAllRetries ∧
    ((download_file_async net task st).2.2.filter isRequestEv).length = 4 ∧
    (download_file_async net task st).2.2.filter isSleepEv =
      [Event.sleep 2, Event.sleep 4, Event.sleep 8] ∧
    (download_file_async net task st).2.1 = st ∧
    retry_with_backoff func 4 2 = (Except.ok none, 4, [2, 4, 8]) := by
  have h1 : download_file_async net task st
      = attemptLoop net task.url task.path (task.path ++ ".part") 0 4 2 st [] := by
    simp [download_file_async, hidx, hdisk, MAX_RETRIES, INITIAL_RETRY_DELAY]
  have he : download_file_async net task st =
      (Outcome.failedAllRetries, st,
       [Event.request task.url
          ((dbLookup st.files (task.path ++ ".part")).map List.length), Event.sleep 2,
        Event.request task.url
          ((dbLookup st.files (task.path ++ ".part")).map List.length), Event.sleep 4,
        Event.request task.url
          ((dbLookup st.files (task.path ++ ".part")).map List.length), Event.sleep 8,
        Event.request task.url
          ((dbLookup st.files (task.path ++ ".part")).map List.length)]) := by
    rw [h1]
    exact attemptLoop_four_netErrors net task.url task.path (task.path ++ ".part") st
      (hnet 0 (by norm_num)) (hnet 1 (by norm_num)) (hnet 2 (by norm_num))
      (hnet 3 (by norm_num))
  refine ⟨by rw [he], ?_, ?_, by rw [he],
    retry_four_notOk func (hfunc 0 (by norm_num)) (hfunc 1 (by norm_num))
      (hfunc 2 (by norm_num)) (hfunc 3 (by norm_num))⟩
  · rw [he]
    rfl
  · rw [he]
    rfl

/-- Witness for C4: concrete run with every attempt a network error. -/
theorem c4_witness :
    (download_file_async (fun _ => NetResult.netError)
        (⟨"u", "/d/f.mp4", "f.mp4", none⟩ : DTask) (⟨[], []⟩ : EngineState)).1
      = Outcome.failedAllRetries ∧
    ((download_file_async (fun _ => NetResult.netError)
        (⟨"u", "/d/f.mp4", "f.mp4", none⟩ : DTask)
        (⟨[], []⟩ : EngineState)).2.2.filter isRequestEv).length = 4 ∧
    (download_file_async (fun _ => NetResult.netError)
        (⟨"u", "/d/f.mp4", "f.mp4", none⟩ : DTask)
        (⟨[], []⟩ : EngineState)).2.2.filter isSleepEv =
      [Event.sleep 2, Event.sleep 4, Event.sleep 8] ∧
    (download_file_async (fun _ => NetResult.netError)
        (⟨"u", "/d/f.mp4", "f.mp4", none⟩ : DTask)
        (⟨[], []⟩ : EngineState)).2.1 = (⟨[], []⟩ : EngineState) ∧
    retry_with_backoff (fun _ => (FuncResult.notOk : FuncResult Unit)) 4 2 =
      (Except.ok none, 4, [2, 4, 8]) :=
  c4_exactly_four_attempts_with_doubling_backoff (fun _ => NetResult.netError)
    ⟨"u", "/d/f.mp4", "f.mp4", none⟩ ⟨[], []⟩
    (fun _ => (FuncResult.notOk : FuncResult Unit)) (by decide) (by decide)
    (fun _ _ => rfl) (fun _ _ => rfl)

/-- C5 counterexample: the claim says a non-network exception aborts
without consuming remaining retry attempts, but the threaded engine
(`retry_with_backoff` in `main.py`, which receives the re-raised fatal
exception of `attempt_download`) calls the attempt 4 times when every
call raises - not 1. -/
theorem c5_counterexample :
    (retry_with_backoff (fun _ => (FuncResult.raises : FuncResult Unit)) 4 2).2.1 = 4 ∧
    (4 : Nat) ≠ 1 :=
  ⟨rfl, by decide⟩

/-- C5 (amended): in the async engine a non-network exception aborts
the task after the current attempt - exactly one request, the temp file
deleted, a Failed outcome - and a run whose attempts fail with
network-class errors leaves the filesystem untouched (the temp file
stays in place as the resume checkpoint); in the threaded engine the
fatal exception deletes the temp file inside the attempt but the
attempt itself is retried with backoff, the exception being re-raised
(and reported as Failed) only on the 4th call. -/
theorem c5_amended_fatal_vs_retryable {α : Type} (net net2 : Nat → NetResult)
    (task : DTask) (st st2 : EngineState) (func : Nat → FuncResult α)
    (hidx : DownloadIndex.is_completed st.completed task.path = false)
    (hdisk : dbLookup st.files task.path = none)
    (hfatal : net 0 = NetResult.fatalError)
    (hidx2 : DownloadIndex.is_completed st2.completed task.path = false)
    (hdisk2 : dbLookup st2.files task.path = none)
    (hnet2 : ∀ k, k < 4 → net2 k = NetResult.netError)
    (hraise : ∀ k, k < 4 → func k = FuncResult.raises) :
    download_file_async net task st =
      (Outcome.failedFatal,
       { st with files := fsRemove st.files (task.path ++ ".part") },
       [Event.request task.url
          ((dbLookup st.files (task.path ++ ".part")).map List.length)]) ∧
    dbLookup (download_file_async net task st).2.1.files (task.path ++ ".part") = none ∧
    (download_file_async net2 task st2).2.1 = st2 ∧
    retry_with_backoff func 4 2 = (Except.error (), 4, [2, 4, 8]) := by
  have h1 : download_file_async net task st
      = attemptLoop net task.url task.path (task.path ++ ".part") 0 4 2 st [] := by
    simp [download_file_async, hidx, hdisk, MAX_RETRIES, INITIAL_RETRY_DELAY]
  have he : download_file_async net task st =
      (Outcome.failedFatal,
       { st with files := fsRemove st.files (task.path ++ ".part") },
       [Event.request task.url
          ((dbLookup st.files (task.path ++ ".part")).map List.length)]) := by
    rw [h1]
    show attemptLoop net task.url task.path (task.path ++ ".part") 0 (3 + 1) 2 st [] = _
    exact attemptLoop_fatal net task.url task.path (task.path ++ ".part") 0 3 2 st [] hfatal
  have h2 : download_file_async net2 task st2
      = attemptLoop net2 task.url task.path (task.path ++ ".part") 0 4 2 st2 [] := by
    simp [download_file_async, hidx2, hdisk2, MAX_RETRIES, INITIAL_RETRY_DELAY]
  have he2 := attemptLoop_four_netErrors net2 task.url task.path (task.path ++ ".part") st2
    (hnet2 0 (by norm_num)) (hnet2 1 (by norm_num)) (hnet2 2 (by norm_num))
    (hnet2 3 (by norm_num))
  refine ⟨he, ?_, ?_, retry_four_raises func (hraise 0 (by norm_num))
    (hraise 1 (by norm_num)) (hraise 2 (by norm_num)) (hraise 3 (by norm_num))⟩
  · rw [he]
    show dbLookup (fsRemove st.files (task.path ++ ".part")) (task.path ++ ".part") = none
    rw [fsRemove, dbLookup_erase_self]
  · rw [h2, he2]

/-- Witness for C5 (amended): a fatal first attempt deletes the 1-byte
temp file after a single request; an all-network-error run preserves
it; the threaded wrapper raises only after 4 calls. -/
theorem c5_witness :
    download_file_async (fun _ => NetResult.fatalError)
        (⟨"u", "/p/f.pdf", "f.pdf", none⟩ : DTask)
        (⟨[], [("/p/f.pdf.part", [1])]⟩ : EngineState) =
      (Outcome.failedFatal,
       { (⟨[], [("/p/f.pdf.part", [1])]⟩ : EngineState) with
           files := fsRemove [("/p/f.pdf.part", [1])] ("/p/f.pdf" ++ ".part") },
       [Event.request "u"
          ((dbLookup [("/p/f.pdf.part", [1])] ("/p/f.pdf" ++ ".part")).map List.length)]) ∧
    dbLookup (download_file_async (fun _ => NetResult.fatalError)
        (⟨"u", "/p/f.pdf", "f.pdf", none⟩ : DTask)
        (⟨[], [("/p/f.pdf.part", [1])]⟩ : EngineState)).2.1.files
      ("/p/f.pdf" ++ ".part") = none ∧
    (download_file_async (fun _ => NetResult.netError)
        (⟨"u", "/p/f.pdf", "f.pdf", none⟩ : DTask)
        (⟨[], [("/p/f.pdf.part", [2])]⟩ : EngineState)).2.1
      = (⟨[], [("/p/f.pdf.part", [2])]⟩ : EngineState) ∧
    retry_with_backoff (fun _ => (FuncResult.raises : FuncResult Unit)) 4 2 =
      (Except.error (), 4, [2, 4, 8]) :=
  c5_amended_fatal_vs_retryable (fun _ => NetResult.fatalError)
    (fun _ => NetResult.netError) ⟨"u", "/p/f.pdf", "f.pdf", none⟩
    ⟨[], [("/p/f.pdf.part", [1])]⟩ ⟨[], [("/p/f.pdf.part", [2])]⟩
    (fun _ => (FuncResult.raises : FuncResult Unit)) (by decide) (by decide) rfl
    (by decide) (by decide) (fun _ _ => rfl) (fun _ _ => rfl)

/-- In any run of the retry loop that ends `downloaded`, the trace ends
with the rename of the temp file followed immediately by the checkpoint
mark, and no mark or rename event occurs earlier. -/
theorem attemptLoop_downloaded_trace (net : Nat → NetResult) (url path tempPath : String) :
    ∀ (fuel attempt delay : Nat) (st : EngineState) (evs : List Event),
      (attemptLoop net url path tempPath attempt fuel delay st evs).1 = Outcome.downloaded →
      ∃ mid, (attemptLoop net url path tempPath attempt fuel delay st evs).2.2
          = evs ++ mid ++ [Event.renameFile tempPath path, Event.markCompleted path] ∧
        mid.all (fun e => !isMarkEv e && !isRenameEv e) = true := by
  intro fuel
  induction fuel with
  | zero =>
    intro attempt delay st evs h
    exact absurd h (by simp [attemptLoop])
  | succ f ih =>
    intro attempt delay st evs h
    cases hnet : net attempt with
    | fatalError =>
      rw [attemptLoop_fatal net url path tempPath attempt f delay st evs hnet] at h
      exact absurd h (by simp)
    | netError =>
      cases f with
      | zero =>
        rw [attemptLoop_netError_last net url path tempPath attempt delay st evs hnet] at h
        exact absurd h (by simp)
      | succ f2 =>
        rw [attemptLoop_netError_cont net url path tempPath attempt f2 delay st evs hnet] at h
        obtain ⟨mid, hmid, hall⟩ := ih (attempt + 1) (delay * 2) st
          (evs ++ [Event.request url ((dbLookup st.files tempPath).map List.length),
            Event.sleep delay]) h
        refine ⟨[Event.request url ((dbLookup st.files tempPath).map List.length),
          Event.sleep delay] ++ mid, ?_, ?_⟩
        · rw [attemptLoop_netError_cont net url path tempPath attempt f2 delay st evs hnet,
            hmid]
          simp [List.append_assoc]
        · rw [List.all_append, hall]
          rfl
    | response status body =>
      by_cases h416 : status = 416
      · subst h416
        cases hex : dbLookup st.files tempPath with
        | some c =>
          rw [attemptLoop_416_some net url path tempPath attempt f delay st evs body c
            hnet hex] at h
          exact absurd h (by simp)
        | none =>
          rw [attemptLoop_416_none net url path tempPath attempt f delay st evs body
            hnet hex] at h
          exact absurd h (by simp)
      · by_cases h400 : 400 ≤ status
        · cases f with
          | zero =>
            rw [attemptLoop_http_last net url path tempPath attempt delay st evs status body
              hnet h416 h400] at h
            exact absurd h (by simp)
          | succ f2 =>
            rw [attemptLoop_http_cont net url path tempPath attempt f2 delay st evs status
              body hnet h416 h400] at h
            obtain ⟨mid, hmid, hall⟩ := ih (attempt + 1) (delay * 2) st
              (evs ++ [Event.request url ((dbLookup st.files tempPath).map List.length),
                Event.sleep delay]) h
            refine ⟨[Event.request url ((dbLookup st.files tempPath).map List.length),
              Event.sleep delay] ++ mid, ?_, ?_⟩
            · rw [attemptLoop_http_cont net url path tempPath attempt f2 delay st evs status
                body hnet h416 h400, hmid]
              simp [List.append_assoc]
            · rw [List.all_append, hall]
              rfl
        · refine ⟨[Event.request url ((dbLookup st.files tempPath).map List.length)] ++
            body.map (Event.writeChunk tempPath), ?_, ?_⟩
          · rw [attemptLoop_ok net url path tempPath attempt f delay st evs status body
              hnet h416 h400]
            simp [List.append_assoc]
          · rw [List.all_append]
            have h2 : ((List.map (Event.writeChunk tempPath) body).all fun e =>
                !isMarkEv e && !isRenameEv e) = true := by
              apply List.all_eq_true.mpr
              intro x hx
              obtain ⟨c, _, hxc⟩ := List.mem_map.mp hx
              rw [← hxc]
              rfl
            rw [h2]
            rfl

/-- C6: every successful fresh transfer writes the streamed bytes to the
temp file, renames it to the destination, and only then marks the
checkpoint store: the trace ends with the rename followed by the mark,
and no mark or rename happens earlier, so the store is never marked
while the final file is still absent. -/
theorem c6_rename_before_mark (net : Nat → NetResult) (task : DTask) (st : EngineState)
    (h : (download_file_async net task st).1 = Outcome.downloaded) :
    ∃ pre, (download_file_async net task st).2.2
        = pre ++ [Event.renameFile (task.path ++ ".part") task.path,
            Event.markCompleted task.path] ∧
      pre.all (fun e => !isMarkEv e && !isRenameEv e) = true := by
  cases hidx : DownloadIndex.is_completed st.completed task.path with
  | true => simp [download_file_async, hidx] at h
  | false =>
    cases hdisk : (dbLookup st.files task.path).isSome with
    | true => simp [download_file_async, hidx, hdisk] at h
    | false =>
      have hun : download_file_async net task st
          = attemptLoop net task.url task.path (task.path ++ ".part") 0 4 2 st [] := by
        simp [download_file_async, hidx, hdisk, MAX_RETRIES, INITIAL_RETRY_DELAY]
      rw [hun] at h
      rw [hun]
      obtain ⟨mid, hmid, hall⟩ := attemptLoop_downloaded_trace net task.url task.path
        (task.path ++ ".part") 4 0 2 st [] h
      refine ⟨mid, ?_, hall⟩
      rw [hmid]
      simp

/-- Witness for C6: a fresh two-chunk 200 download produces a trace
ending in rename-then-mark with no earlier mark or rename. -/
theorem c6_witness :
    ∃ pre, (download_file_async (fun _ => NetResult.response 200 [[1, 2], [3]])
        (⟨"u", "/w/f.bin", "f.bin", none⟩ : DTask) (⟨[], []⟩ : EngineState)).2.2
        = pre ++ [Event.renameFile ("/w/f.bin" ++ ".part") "/w/f.bin",
            Event.markCompleted "/w/f.bin"] ∧
      pre.all (fun e => !isMarkEv e && !isRenameEv e) = true :=
  c6_rename_before_mark (fun _ => NetResult.response 200 [[1, 2], [3]])
    ⟨"u", "/w/f.bin", "f.bin", none⟩ ⟨[], []⟩ rfl

/-! ## Integrity verification (C7) -/

/-- C7 counterexample: the claim requires invalid-with-size-mismatch
whenever the on-disk size differs from the stored size, but the source
guards the size check with Python truthiness (`if stored_size and ...`):
a record whose stored size is 0 with a 1-byte file on disk (sizes 0 and
1 differ) is NOT reported as a size mismatch - the first verification
path runs instead and returns valid. -/
theorem c7_counterexample :
    (DownloadDatabase.verify_file_integrity (fun _ => "abc")
        (fun q => if q = "/f" then some ⟨[7], true, true⟩ else none) "/f" false
        (⟨[("/f", ⟨"f", "u", "c", "l", "pdf", some 0, none, false, "completed"⟩)],
          ⟨1, 0, 0, 0, 0⟩⟩ : DBState)).1
      = (true, DownloadDatabase.VerifyDetail.hashSaved) ∧
    (1 : Nat) ≠ 0 :=
  ⟨rfl, by decide⟩

/-- C7 (amended): `verify_file_integrity` returns invalid with a
file-missing detail when the file is absent; returns invalid with a
size-mismatch detail - without computing any digest, the result being
the same for every digest function - when the file exists and a
NON-NULL, NON-ZERO stored size differs from the on-disk size; and on
first verification of a record with no stored digest (file readable,
no size conflict) it computes a digest, stores it with the verified
flag, and returns valid. -/
theorem c7_amended_verify_integrity :
    (∀ (hash : HashFn) (fs : FileSystem) (p : String) (recalculate : Bool) (db : DBState),
      fs p = none →
      DownloadDatabase.verify_file_integrity hash fs p recalculate db
        = ((false, DownloadDatabase.VerifyDetail.fileMissing), db)) ∧
    (∀ (hash : HashFn) (fs : FileSystem) (p : String) (recalculate : Bool) (db : DBState)
      (fd : FileData) (r : DBRecord) (ss : Nat),
      fs p = some fd →
      dbLookup db.downloads p = some r →
      fd.statOk = true →
      r.size_bytes = some ss → ss ≠ 0 → fd.content.length ≠ ss →
      DownloadDatabase.verify_file_integrity hash fs p recalculate db
        = ((false, DownloadDatabase.VerifyDetail.sizeMismatch ss fd.content.length), db)) ∧
    (∀ (hash : HashFn) (fs : FileSystem) (p : String) (db : DBState)
      (fd : FileData) (r : DBRecord),
      fs p = some fd →
      dbLookup db.downloads p = some r →
      fd.statOk = true →
      truthyStr r.sha256 = false →
      (truthyNat r.size_bytes = false ∨ r.size_bytes.getD 0 = fd.content.length) →
      fd.readOk = true →
      hash fd.content ≠ "" →
      DownloadDatabase.verify_file_integrity hash fs p false db
        = ((true, DownloadDatabase.VerifyDetail.hashSaved),
           { db with downloads :=
               (p, { r with sha256 := some (hash fd.content), verified := true }) ::
                 dbErase db.downloads p })) := by
  refine ⟨?_, ?_, ?_⟩
  · intro hash fs p recalculate db hfs
    simp [DownloadDatabase.verify_file_integrity, hfs]
  · intro hash fs p recalculate db fd r ss hfs hr hstat hsz hss hne
    simp [DownloadDatabase.verify_file_integrity, hfs, hr, hstat, hsz, truthyNat, hss, hne]
  · intro hash fs p db fd r hfs hr hstat hsha hszok hread hhash
    have hguard : (truthyNat r.size_bytes &&
        (fd.content.length != r.size_bytes.getD 0)) = false := by
      rcases hszok with hl | hr2
      · rw [hl]
        rfl
      · rw [hr2]
        simp
    simp [DownloadDatabase.verify_file_integrity, hfs, hr, hstat, hguard, hsha,
      DownloadDatabase._calculate_sha256, hread, hhash]

/-- Witness for C7 (amended): the three branches at concrete inputs -
missing file, stored size 5 against a 2-byte file, and a first
verification that stores the digest. -/
theorem c7_witness :
    DownloadDatabase.verify_file_integrity (fun _ => "abc") (fun _ => none) "/m" false
        (⟨[], ⟨0, 0, 0, 0, 0⟩⟩ : DBState)
      = ((false, DownloadDatabase.VerifyDetail.fileMissing), (⟨[], ⟨0, 0, 0, 0, 0⟩⟩ : DBState)) ∧
    DownloadDatabase.verify_file_integrity (fun _ => "abc")
        (fun q => if q = "/s" then some ⟨[1, 2], true, true⟩ else none) "/s" false
        (⟨[("/s", ⟨"s", "u", "c", "l", "pdf", some 5, none, false, "completed"⟩)],
          ⟨1, 0, 0, 0, 0⟩⟩ : DBState)
      = ((false, DownloadDatabase.VerifyDetail.sizeMismatch 5 ([1, 2] : List Nat).length),
         (⟨[("/s", ⟨"s", "u", "c", "l", "pdf", some 5, none, false, "completed"⟩)],
           ⟨1, 0, 0, 0, 0⟩⟩ : DBState)) ∧
    DownloadDatabase.verify_file_integrity (fun _ => "abc")
        (fun q => if q = "/h" then some ⟨[1, 2], true, true⟩ else none) "/h" false
        (⟨[("/h", ⟨"h", "u", "c", "l", "pdf", some 2, none, false, "completed"⟩)],
          ⟨1, 0, 0, 0, 0⟩⟩ : DBState)
      = ((true, DownloadDatabase.VerifyDetail.hashSaved),
         (⟨[("/h", ⟨"h", "u", "c", "l", "pdf", some 2, some "abc", true, "completed"⟩)],
           ⟨1, 0, 0, 0, 0⟩⟩ : DBState)) :=
  ⟨c7_amended_verify_integrity.1 (fun _ => "abc") (fun _ => none) "/m" false
      ⟨[], ⟨0, 0, 0, 0, 0⟩⟩ rfl,
   c7_amended_verify_integrity.2.1 (fun _ => "abc")
      (fun q => if q = "/s" then some ⟨[1, 2], true, true⟩ else none) "/s" false
      ⟨[("/s", ⟨"s", "u", "c", "l", "pdf", some 5, none, false, "completed"⟩)], ⟨1, 0, 0, 0, 0⟩⟩
      ⟨[1, 2], true, true⟩ ⟨"s", "u", "c", "l", "pdf", some 5, none, false, "completed"⟩ 5
      (by decide) (by decide) rfl rfl (by decide) (by decide),
   c7_amended_verify_integrity.2.2 (fun _ => "abc")
      (fun q => if q = "/h" then some ⟨[1, 2], true, true⟩ else none) "/h"
      ⟨[("/h", ⟨"h", "u", "c", "l", "pdf", some 2, none, false, "completed"⟩)], ⟨1, 0, 0, 0, 0⟩⟩
      ⟨[1, 2], true, true⟩ ⟨"h", "u", "c", "l", "pdf", some 2, none, false, "completed"⟩
      (by decide) (by decide) rfl rfl (Or.inr rfl) rfl (by decide)⟩

/-! ## Migration lemmas -/

namespace DownloadDatabase

theorem mark_is_downloaded (hash : HashFn) (fs : FileSystem)
    (p url cn ln ft : String) (sz : Option Nat) (ch : Bool) (db : DBState) :
    is_downloaded (mark_downloaded hash fs p url cn ln ft sz ch db) p = true := by
  unfold is_downloaded
  rw [mark_lookup_self]
  rfl

theorem is_downloaded_eq_of_lookup (db1 db2 : DBState) (p : String)
    (h : dbLookup db1.downloads p = dbLookup db2.downloads p) :
    is_downloaded db1 p = is_downloaded db2 p := by
  unfold is_downloaded
  rw [h]

theorem migrateEntry_length_absent (hash : HashFn) (fs : FileSystem) (db : DBState)
    (p : String) (h : dbLookup db.downloads p = none) :
    (migrateEntry hash fs db p).downloads.length = db.downloads.length + 1 := by
  simp only [migrateEntry]
  exact mark_length_absent _ _ _ _ _ _ _ _ _ _ h

theorem migrateEntry_lookup_ne (hash : HashFn) (fs : FileSystem) (db : DBState)
    (p q : String) (h : q ≠ p) :
    dbLookup (migrateEntry hash fs db p).downloads q = dbLookup db.downloads q := by
  simp only [migrateEntry]
  exact mark_lookup_ne _ _ _ _ _ _ _ _ _ _ q h

theorem migrateEntry_is_downloaded (hash : HashFn) (fs : FileSystem) (db : DBState)
    (p : String) : is_downloaded (migrateEntry hash fs db p) p = true := by
  simp only [migrateEntry]
  exact mark_is_downloaded _ _ _ _ _ _ _ _ _ _

/-- Importing a list of distinct paths that are all new to the store
succeeds, adds exactly one row per path, touches no other row, and
leaves every imported path reported as downloaded. -/
theorem migrateEntries_fresh (hash : HashFn) (fs : FileSystem) :
    ∀ (ps : List String) (db : DBState),
      ps.Nodup → (∀ p ∈ ps, dbLookup db.downloads p = none) →
      (migrateEntries hash fs (ps.map some) db).2 = true ∧
      (migrateEntries hash fs (ps.map some) db).1.downloads.length
        = db.downloads.length + ps.length ∧
      (∀ q, q ∉ ps → dbLookup (migrateEntries hash fs (ps.map some) db).1.downloads q
        = dbLookup db.downloads q) ∧
      (∀ p ∈ ps, is_downloaded (migrateEntries hash fs (ps.map some) db).1 p = true) := by
  intro ps
  induction ps with
  | nil =>
    intro db _ _
    exact ⟨rfl, rfl, fun q _ => rfl, fun p hp => absurd hp (List.not_mem_nil p)⟩
  | cons p rest ih =>
    intro db hnd hfresh
    have hpfresh : dbLookup db.downloads p = none := hfresh p (List.mem_cons_self p rest)
    have hprest : p ∉ rest := (List.nodup_cons.mp hnd).1
    have hndrest : rest.Nodup := (List.nodup_cons.mp hnd).2
    have hfresh2 : ∀ q ∈ rest, dbLookup (migrateEntry hash fs db p).downloads q = none := by
      intro q hq
      have hqp : q ≠ p := fun he => hprest (he ▸ hq)
      rw [migrateEntry_lookup_ne hash fs db p q hqp]
      exact hfresh q (List.mem_cons_of_mem p hq)
    obtain ⟨htrue, hlen, hpres, hdown⟩ := ih (migrateEntry hash fs db p) hndrest hfresh2
    have hstep : migrateEntries hash fs ((p :: rest).map some) db
        = migrateEntries hash fs (rest.map some) (migrateEntry hash fs db p) := rfl
    refine ⟨?_, ?_, ?_, ?_⟩
    · rw [hstep]
      exact htrue
    · rw [hstep, hlen, migrateEntry_length_absent hash fs db p hpfresh, List.length_cons]
      omega
    · intro q hq
      have hqrest : q ∉ rest := fun hh => hq (List.mem_cons_of_mem p hh)
      have hqp : q ≠ p := fun he => hq (he ▸ List.mem_cons_self p rest)
      rw [hstep, hpres q hqrest, migrateEntry_lookup_ne hash fs db p q hqp]
    · intro x hx
      rcases List.mem_cons.mp hx with hxp | hxr
      · subst hxp
        rw [hstep]
        have hlp := hpres x hprest
        rw [is_downloaded_eq_of_lookup
          (migrateEntries hash fs (rest.map some) (migrateEntry hash fs db x)).1
          (migrateEntry hash fs db x) x hlp]
        exact migrateEntry_is_downloaded hash fs db x
      · rw [hstep]
        exact hdown x hxr

/-- An entry on which the migration loop raises abandons the loop,
keeping exactly the rows already inserted for the prefix before it. -/
theorem migrateEntries_fail_prefix (hash : HashFn) (fs : FileSystem) :
    ∀ (ps : List String) (rest : List (Option String)) (db : DBState),
      migrateEntries hash fs (ps.map some ++ none :: rest) db
        = ((migrateEntries hash fs (ps.map some) db).1, false) := by
  intro ps
  induction ps with
  | nil => intro rest db; rfl
  | cons p ps2 ih => intro rest db; exact ih rest (migrateEntry hash fs db p)

/-- When the legacy file is gone, initialization is a no-op. -/
theorem migrate_absent (hash : HashFn) (fs : FileSystem) (s : RichStore)
    (h : s.legacy = LegacyIndex.absent) :
    _migrate_from_json_if_needed hash fs s = s := by
  simp [_migrate_from_json_if_needed, h]

end DownloadDatabase

/-- C8 counterexample: a legacy flat index that exists with K = 0 unique
paths (an empty completed list) while the store is empty is NOT renamed
to a backup - the migration returns before the backup step, leaving the
legacy file in place, against the claim's unconditional rename. -/
theorem c8_counterexample :
    DownloadDatabase._migrate_from_json_if_needed (fun _ => "h") (fun _ => none)
        (⟨⟨[], ⟨0, 0, 0, 0, 0⟩⟩, DownloadDatabase.LegacyIndex.parsed [], false⟩ :
          DownloadDatabase.RichStore)
      = (⟨⟨[], ⟨0, 0, 0, 0, 0⟩⟩, DownloadDatabase.LegacyIndex.parsed [], false⟩ :
          DownloadDatabase.RichStore) ∧
    (DownloadDatabase._migrate_from_json_if_needed (fun _ => "h") (fun _ => none)
        (⟨⟨[], ⟨0, 0, 0, 0, 0⟩⟩, DownloadDatabase.LegacyIndex.parsed [], false⟩ :
          DownloadDatabase.RichStore)).backedUp = false :=
  ⟨rfl, rfl⟩

/-- C8 (amended): initializing the rich store over a legacy flat index
with K >= 1 unique paths while the store holds zero records imports
exactly K records (each reported downloaded), renames the legacy index
to a timestamped backup, and a second initialization is a no-op; an
empty legacy index (K = 0) is left in place untouched. -/
theorem c8_amended_migration_imports_k (hash : HashFn) (fs : FileSystem)
    (ps : List String) (st : DownloadDatabase.RichStore)
    (hnd : ps.Nodup) (hne : ps ≠ [])
    (hdb : st.db.downloads = [])
    (hleg : st.legacy = DownloadDatabase.LegacyIndex.parsed (ps.map some)) :
    (DownloadDatabase._migrate_from_json_if_needed hash fs st).db.downloads.length
      = ps.length ∧
    (DownloadDatabase._migrate_from_json_if_needed hash fs st).backedUp = true ∧
    (DownloadDatabase._migrate_from_json_if_needed hash fs st).legacy
      = DownloadDatabase.LegacyIndex.absent ∧
    (∀ p ∈ ps, DownloadDatabase.is_downloaded
      (DownloadDatabase._migrate_from_json_if_needed hash fs st).db p = true) ∧
    DownloadDatabase._migrate_from_json_if_needed hash fs
        (DownloadDatabase._migrate_from_json_if_needed hash fs st)
      = DownloadDatabase._migrate_from_json_if_needed hash fs st := by
  have hfresh : ∀ p ∈ ps, dbLookup st.db.downloads p = none := by
    intro p _
    rw [hdb]
    rfl
  obtain ⟨htrue, hlen, hpres, hdown⟩ :=
    DownloadDatabase.migrateEntries_fresh hash fs ps st.db hnd hfresh
  have hie : (List.map some ps).isEmpty = false := by
    cases hE : ps with
    | nil => exact absurd hE hne
    | cons a l => rfl
  cases hm : DownloadDatabase.migrateEntries hash fs (ps.map some) st.db with
  | mk db2 b =>
    rw [hm] at htrue hlen hdown
    dsimp only at htrue hlen hdown
    subst htrue
    have hst1 : DownloadDatabase._migrate_from_json_if_needed hash fs st
        = ⟨db2, DownloadDatabase.LegacyIndex.absent, true⟩ := by
      simp [DownloadDatabase._migrate_from_json_if_needed, hleg, hdb, hie, hm]
    rw [hdb] at hlen
    simp only [List.length_nil, Nat.zero_add] at hlen
    refine ⟨?_, ?_, ?_, ?_, ?_⟩
    · rw [hst1]
      exact hlen
    · rw [hst1]
    · rw [hst1]
    · intro p hp
      rw [hst1]
      exact hdown p hp
    · rw [hst1]
      exact DownloadDatabase.migrate_absent hash fs
        ⟨db2, DownloadDatabase.LegacyIndex.absent, true⟩ rfl

/-- Witness for C8 (amended): a legacy index of 2 distinct paths is
imported as exactly 2 records, backed up, and stable on re-run. -/
theorem c8_witness :
    (DownloadDatabase._migrate_from_json_if_needed (fun _ => "h") (fun _ => none)
        (⟨⟨[], ⟨0, 0, 0, 0, 0⟩⟩,
          DownloadDatabase.LegacyIndex.parsed
            (["/c1/a1/f1.mp4", "/c2/a2/f2.pdf"].map some), false⟩ :
          DownloadDatabase.RichStore)).db.downloads.length
      = (["/c1/a1/f1.mp4", "/c2/a2/f2.pdf"] : List String).length ∧
    (DownloadDatabase._migrate_from_json_if_needed (fun _ => "h") (fun _ => none)
        (⟨⟨[], ⟨0, 0, 0, 0, 0⟩⟩,
          DownloadDatabase.LegacyIndex.parsed
            (["/c1/a1/f1.mp4", "/c2/a2/f2.pdf"].map some), false⟩ :
          DownloadDatabase.RichStore)).backedUp = true ∧
    (DownloadDatabase._migrate_from_json_if_needed (fun _ => "h") (fun _ => none)
        (⟨⟨[], ⟨0, 0, 0, 0, 0⟩⟩,
          DownloadDatabase.LegacyIndex.parsed
            (["/c1/a1/f1.mp4", "/c2/a2/f2.pdf"].map some), false⟩ :
          DownloadDatabase.RichStore)).legacy = DownloadDatabase.LegacyIndex.absent ∧
    (∀ p ∈ (["/c1/a1/f1.mp4", "/c2/a2/f2.pdf"] : List String),
      DownloadDatabase.is_downloaded
        (DownloadDatabase._migrate_from_json_if_needed (fun _ => "h") (fun _ => none)
          (⟨⟨[], ⟨0, 0, 0, 0, 0⟩⟩,
            DownloadDatabase.LegacyIndex.parsed
              (["/c1/a1/f1.mp4", "/c2/a2/f2.pdf"].map some), false⟩ :
            DownloadDatabase.RichStore)).db p = true) ∧
    DownloadDatabase._migrate_from_json_if_needed (fun _ => "h") (fun _ => none)
        (DownloadDatabase._migrate_from_json_if_needed (fun _ => "h") (fun _ => none)
          (⟨⟨[], ⟨0, 0, 0, 0, 0⟩⟩,
            DownloadDatabase.LegacyIndex.parsed
              (["/c1/a1/f1.mp4", "/c2/a2/f2.pdf"].map some), false⟩ :
            DownloadDatabase.RichStore))
      = DownloadDatabase._migrate_from_json_if_needed (fun _ => "h") (fun _ => none)
          (⟨⟨[], ⟨0, 0, 0, 0, 0⟩⟩,
            DownloadDatabase.LegacyIndex.parsed
              (["/c1/a1/f1.mp4", "/c2/a2/f2.pdf"].map some), false⟩ :
            DownloadDatabase.RichStore) :=
  c8_amended_migration_imports_k (fun _ => "h") (fun _ => none)
    ["/c1/a1/f1.mp4", "/c2/a2/f2.pdf"]
    ⟨⟨[], ⟨0, 0, 0, 0, 0⟩⟩,
      DownloadDatabase.LegacyIndex.parsed
        (["/c1/a1/f1.mp4", "/c2/a2/f2.pdf"].map some), false⟩
    (by decide) (by decide) rfl rfl

/-- C9 counterexample: migrating a legacy list whose first entry is a
valid path and whose second entry raises (a non-string element) leaves
1 record in the rich store - not 0 as the claim requires after a failed
migration. -/
theorem c9_counterexample :
    (DownloadDatabase._migrate_from_json_if_needed (fun _ => "h") (fun _ => none)
        (⟨⟨[], ⟨0, 0, 0, 0, 0⟩⟩,
          DownloadDatabase.LegacyIndex.parsed [some "/c/a/l/v.mp4", none], false⟩ :
          DownloadDatabase.RichStore)).db.downloads.length = 1 ∧
    (1 : Nat) ≠ 0 :=
  ⟨rfl, by decide⟩

/-- C9 (amended): an exception during migration is caught and never
propagates; when it happens before any entry is imported (the legacy
index fails to parse) the rich store is left exactly as it was - still
empty - but an exception raised mid-import keeps the records already
imported for the prefix before the raising entry (each mark commits
individually), with the legacy index left un-renamed. -/
theorem c9_amended_migration_exception (hash : HashFn) (fs : FileSystem) :
    (∀ st : DownloadDatabase.RichStore,
      st.legacy = DownloadDatabase.LegacyIndex.unparseable →
      DownloadDatabase._migrate_from_json_if_needed hash fs st = st) ∧
    (∀ (ps : List String) (rest : List (Option String))
      (st : DownloadDatabase.RichStore),
      st.db.downloads = [] →
      st.legacy = DownloadDatabase.LegacyIndex.parsed (ps.map some ++ none :: rest) →
      (DownloadDatabase._migrate_from_json_if_needed hash fs st).db
          = (DownloadDatabase.migrateEntries hash fs (ps.map some) st.db).1 ∧
      (DownloadDatabase._migrate_from_json_if_needed hash fs st).legacy = st.legacy ∧
      (DownloadDatabase._migrate_from_json_if_needed hash fs st).backedUp
        = st.backedUp) := by
  constructor
  · intro st h
    simp [DownloadDatabase._migrate_from_json_if_needed, h]
  · intro ps rest st hdb hleg
    have hie : (List.map some ps ++ none :: rest).isEmpty = false := by
      cases hE : List.map some ps with
      | nil => rfl
      | cons a l => rfl
    have hm := DownloadDatabase.migrateEntries_fail_prefix hash fs ps rest st.db
    have hst1 : DownloadDatabase._migrate_from_json_if_needed hash fs st
        = { st with db := (DownloadDatabase.migrateEntries hash fs (ps.map some) st.db).1 } := by
      simp [DownloadDatabase._migrate_from_json_if_needed, hleg, hdb, hie, hm]
    rw [hst1]
    exact ⟨rfl, rfl, rfl⟩

/-- Witness for C9 (amended): an unparseable legacy index leaves the
empty store untouched, and a raising second entry keeps exactly the
one record imported before it, without renaming the legacy file. -/
theorem c9_witness :
    DownloadDatabase._migrate_from_json_if_needed (fun _ => "h") (fun _ => none)
        (⟨⟨[], ⟨0, 0, 0, 0, 0⟩⟩, DownloadDatabase.LegacyIndex.unparseable, false⟩ :
          DownloadDatabase.RichStore)
      = (⟨⟨[], ⟨0, 0, 0, 0, 0⟩⟩, DownloadDatabase.LegacyIndex.unparseable, false⟩ :
          DownloadDatabase.RichStore) ∧
    ((DownloadDatabase._migrate_from_json_if_needed (fun _ => "h") (fun _ => none)
        (⟨⟨[], ⟨0, 0, 0, 0, 0⟩⟩,
          DownloadDatabase.LegacyIndex.parsed [some "/x/y/z/w.pdf", none], false⟩ :
          DownloadDatabase.RichStore)).db
        = (DownloadDatabase.migrateEntries (fun _ => "h") (fun _ => none)
            (["/x/y/z/w.pdf"].map some)
            (⟨⟨[], ⟨0, 0, 0, 0, 0⟩⟩,
              DownloadDatabase.LegacyIndex.parsed [some "/x/y/z/w.pdf", none], false⟩ :
              DownloadDatabase.RichStore).db).1 ∧
      (DownloadDatabase._migrate_from_json_if_needed (fun _ => "h") (fun _ => none)
        (⟨⟨[], ⟨0, 0, 0, 0, 0⟩⟩,
          DownloadDatabase.LegacyIndex.parsed [some "/x/y/z/w.pdf", none], false⟩ :
          DownloadDatabase.RichStore)).legacy
        = (⟨⟨[], ⟨0, 0, 0, 0, 0⟩⟩,
            DownloadDatabase.LegacyIndex.parsed [some "/x/y/z/w.pdf", none], false⟩ :
            DownloadDatabase.RichStore).legacy ∧
      (DownloadDatabase._migrate_from_json_if_needed (fun _ => "h") (fun _ => none)
        (⟨⟨[], ⟨0, 0, 0, 0, 0⟩⟩,
          DownloadDatabase.LegacyIndex.parsed [some "/x/y/z/w.pdf", none], false⟩ :
          DownloadDatabase.RichStore)).backedUp
        = (⟨⟨[], ⟨0, 0, 0, 0, 0⟩⟩,
            DownloadDatabase.LegacyIndex.parsed [some "/x/y/z/w.pdf", none], false⟩ :
            DownloadDatabase.RichStore).backedUp) :=
  ⟨(c9_amended_migration_exception (fun _ => "h") (fun _ => none)).1
      ⟨⟨[], ⟨0, 0, 0, 0, 0⟩⟩, DownloadDatabase.LegacyIndex.unparseable, false⟩ rfl,
   (c9_amended_migration_exception (fun _ => "h") (fun _ => none)).2
      ["/x/y/z/w.pdf"] []
      ⟨⟨[], ⟨0, 0, 0, 0, 0⟩⟩,
        DownloadDatabase.LegacyIndex.parsed [some "/x/y/z/w.pdf", none], false⟩
      rfl rfl⟩

end EstrategiaDown
